import Mathlib

/-!
Shallow embedding of the material-visibility controller shared by the
`AdvancedModelViewerDemo` React components of this repository
(`src/unnamed/part_000` and the first component of `src/unnamed/part_001`;
the second component of `part_001` repeats the same `setMaterialAlpha` and
`updateGroupVisibility` bodies without the per-material inspector state).

The `<model-viewer>` element is modelled as an explicit `El` record holding
the scene graph the controller reads and mutates; the React `useState` cells
and the `originalColor` ref are gathered in `CState`.  JavaScript records
keyed by strings (`{...prev, [k]: v}` spreads) become association lists with
shadowing update (`recordSet`), and the `Map` used for the colour cache
becomes an association list extended only when the key is absent, mirroring
the `has`-guarded `set` in `onLoad`.  Channel values and alphas are
rationals: the controller only copies them and compares `alpha < 1`, so no
floating-point arithmetic is lost.  A fault-injection flag `modelThrows`
models the documented failure mode of the opaque renderer (a scene-graph
accessor that throws while the model is not ready); functions whose
JavaScript bodies can observe such a throw return `Except Unit`, and a
`try`/`catch` in the source becomes a `match` on that `Except`.
-/

namespace MVDemo

/-- RGBA base-colour factor: the four numeric channels of a material's
`baseColorFactor`. -/
structure Rgba where
  r : ℚ
  g : ℚ
  b : ℚ
  a : ℚ
deriving DecidableEq

/-- Opaque white `[1,1,1,1]`, the default used when a material exposes no
base-colour factor. -/
def whiteRgba : Rgba := ⟨1, 1, 1, 1⟩

/-- Model of a material's `pbrMetallicRoughness` handle.  The
`baseColorFactor` accessor may itself be absent: the source reads it as
`m.pbrMetallicRoughness?.baseColorFactor ?? [1,1,1,1]`. -/
structure PBR where
  baseColorFactor : Option Rgba
deriving DecidableEq

/-- Model of one runtime material object of the scene graph: a possibly
missing `name`, a possibly missing `pbrMetallicRoughness` handle, and the
blend mode written by `setAlphaMode`. -/
structure Material where
  name : Option String
  pbrMetallicRoughness : Option PBR
  alphaMode : String
deriving DecidableEq

/-- Model of `el.model`: the scene-graph handle with its material list. -/
structure ModelObj where
  materials : List Material
deriving DecidableEq

/-- Model of the `<model-viewer>` element (`MVElement`): variant API, the
scene-graph handle, and the fault-injection flag for a throwing scene-graph
accessor (`modelThrows`). -/
structure El where
  availableVariants : Option (List String)
  variantName : Option String
  model : Option ModelObj
  modelThrows : Bool
deriving DecidableEq

/-- Component state: the `useState` cells of the component together with the
`originalColor` ref (material name to cached original base colour). -/
structure CState where
  variants : List String
  variant : String
  materials : List String
  materialVisibility : List (String × Bool)
  groupVisibility : List (String × Bool)
  originalColor : List (String × Rgba)
deriving DecidableEq

/-- Shadowing update of a string-keyed record, modelling the JavaScript
spread `{...r, [k]: v}` (and `vis[k] = v` on a fresh object). -/
def recordSet (r : List (String × α)) (k : String) (v : α) : List (String × α) :=
  (k, v) :: r.filter (fun p => p.1 != k)

/-- Lowercasing of a string, modelling `String.prototype.toLowerCase` on the
ASCII names this controller handles. -/
def strToLower (s : String) : String := ⟨s.data.map Char.toLower⟩

/-- Check that `pat` occurs at the start of `s` (on character lists). -/
def charsStartWith : List Char → List Char → Bool
  | [], _ => true
  | _ :: _, [] => false
  | a :: as, b :: bs => a == b && charsStartWith as bs

/-- Check that `pat` occurs somewhere in `s` (on character lists). -/
def charsContain (pat : List Char) : List Char → Bool
  | [] => charsStartWith pat []
  | b :: bs => charsStartWith pat (b :: bs) || charsContain pat bs

/-- Substring containment, modelling `s.includes(pat)`. -/
def strContains (s pat : String) : Bool := charsContain pat.data s.data

/-- Insert a string into an already sorted list. -/
def insertSorted (a : String) : List String → List String
  | [] => [a]
  | b :: bs => if a ≤ b then a :: b :: bs else b :: insertSorted a bs

/-- Sorting of the material-name list, modelling
`names.sort((a,b) => a.localeCompare(b))` by the lexicographic string
order. -/
def sortStrings : List String → List String
  | [] => []
  | a :: as => insertSorted a (sortStrings as)

/-- Materials of the element's scene graph, modelling
`el.model?.materials ?? []` when the accessor does not throw. -/
def elMaterials (el : El) : List Material :=
  (el.model.map ModelObj.materials).getD []

/-- Reading `el.model?.materials ?? []` through the possibly throwing
scene-graph accessor. -/
def readMaterials (el : El) : Except Unit (List Material) :=
  if el.modelThrows then Except.error () else Except.ok (elMaterials el)

/-- Original base colour of a material, defaulting to opaque white:
`m.pbrMetallicRoughness?.baseColorFactor ?? [1,1,1,1]`. -/
def baseColorOrWhite (m : Material) : Rgba :=
  (m.pbrMetallicRoughness.bind PBR.baseColorFactor).getD whiteRgba

/-- Material-collection loop of `onLoad`: for each material, skip it when its
name is falsy, otherwise push the name, set its visibility flag, and cache
its original base colour when the name is not cached yet. -/
def cacheLoop : List Material → List String → List (String × Bool) →
    List (String × Rgba) → List String × List (String × Bool) × List (String × Rgba)
  | [], names, vis, oc => (names, vis, oc)
  | m :: rest, names, vis, oc =>
    match m.name with
    | none => cacheLoop rest names vis oc
    | some n =>
      if n.isEmpty then cacheLoop rest names vis oc
      else
        cacheLoop rest (names ++ [n]) (recordSet vis n true)
          (if (oc.lookup n).isSome then oc else oc ++ [(n, baseColorOrWhite m)])

/-- The value of `w || v` for a nullable string `w`. -/
def orElseName (w : Option String) (v : String) : String :=
  match w with
  | some s => if s.isEmpty then v else s
  | none => v

/-- Variant half of the `load` handler: publish `availableVariants`, and when
it is non-empty default both the `variant` state and the element's
`variantName` with `x || list[0]`. -/
def onLoadVariants (el : El) (s : CState) : El × CState :=
  match el.availableVariants.getD [] with
  | [] => (el, { s with variants := [] })
  | v :: vs =>
    ({ el with variantName := some (orElseName el.variantName v) },
     { s with variants := v :: vs,
              variant := if s.variant.isEmpty then v else s.variant })

/-- The `load` handler (`onLoad`): the variant block followed by the
`try`-guarded material collection; on a throw the catch logs and leaves the
material state untouched. -/
def onLoad (el : El) (s : CState) : El × CState :=
  let p := onLoadVariants el s
  match readMaterials p.1 with
  | Except.error _ => (p.1, p.2)
  | Except.ok mats =>
    let t := cacheLoop mats [] [] p.2.originalColor
    (p.1, { p.2 with materials := sortStrings t.1,
                     materialVisibility := t.2.1,
                     originalColor := t.2.2 })

/-- Predicate of the `find` in `setMaterialAlpha`:
`typeof mm?.name === 'string' && mm.name.toLowerCase() === matName.toLowerCase()`. -/
def matMatches (matName : String) (m : Material) : Bool :=
  match m.name with
  | some s => strToLower s == strToLower matName
  | none => false

/-- Original colour fetched inside `setMaterialAlpha`:
`originalColor.current.get(m.name) ?? [1,1,1,1]`. -/
def origOf (oc : List (String × Rgba)) (m : Material) : Rgba :=
  (oc.lookup (m.name.getD "")).getD whiteRgba

/-- Mutation applied to the found material:
`pmr.setBaseColorFactor([r, g, b, alpha])` followed by
`m.setAlphaMode(alpha < 1 ? 'BLEND' : 'OPAQUE')`.  (The missing-handle case
never arises here because `setMaterialAlpha` returns before mutating when
`pbrMetallicRoughness` is absent.) -/
def applyAlphaTo (oc : List (String × Rgba)) (alpha : ℚ) (m : Material) : Material :=
  match m.pbrMetallicRoughness with
  | none => m
  | some pmr =>
    { m with
      pbrMetallicRoughness :=
        some { pmr with
               baseColorFactor :=
                 some ⟨(origOf oc m).r, (origOf oc m).g, (origOf oc m).b, alpha⟩ },
      alphaMode := if alpha < 1 then "BLEND" else "OPAQUE" }

/-- In-place mutation of the first list element satisfying `p`, modelling the
JavaScript mutation of the object returned by `Array.prototype.find`. -/
def updateFirst (p : Material → Bool) (f : Material → Material) : List Material → List Material
  | [] => []
  | m :: rest => if p m then f m :: rest else m :: updateFirst p f rest

/-- Replace the material list inside the element's scene graph. -/
def setMatsIn (el : El) (mats : List Material) : El :=
  { el with model := el.model.map (fun mo => { mo with materials := mats }) }

/-- The `setMaterialAlpha(matName, alpha)` helper.  `el?` is `mvRef.current`
(nullable).  A missing material or a missing `pbrMetallicRoughness` handle is
an early return; otherwise the found material is mutated in place.  The body
has no `try`, so a throwing scene-graph accessor propagates as `error`. -/
def setMaterialAlpha (el? : Option El) (oc : List (String × Rgba))
    (matName : String) (alpha : ℚ) : Except Unit (Option El) :=
  match el? with
  | none => Except.ok none
  | some el =>
    if el.modelThrows then Except.error ()
    else
      match (elMaterials el).find? (matMatches matName) with
      | none => Except.ok (some el)
      | some m =>
        match m.pbrMetallicRoughness with
        | none => Except.ok (some el)
        | some _ =>
          Except.ok (some (setMatsIn el
            (updateFirst (matMatches matName) (applyAlphaTo oc alpha) (elMaterials el))))

/-- Group-pattern match of `updateGroupVisibility`:
`patterns.some((p) => lower.includes(p.toLowerCase()))` where
`lower = (m?.name ?? '').toLowerCase()`. -/
def groupMatches (patterns : List String) (m : Material) : Bool :=
  patterns.any (fun p => strContains (strToLower (m.name.getD "")) (strToLower p))

/-- Loop body of `updateGroupVisibility`: for each material whose name
matches a pattern, call the alpha setter and set that name's visibility
flag.  In this embedding `modelThrows` is a constant property of the
element, so an error can only surface on the first materials access; the
`catch` in `updateGroupVisibility` therefore never observes a partially
mutated element. -/
def groupLoop (oc : List (String × Rgba)) (patterns : List String) (alpha : ℚ)
    (visible : Bool) :
    List Material → Option El → List (String × Bool) →
      Except Unit (Option El × List (String × Bool))
  | [], el?, vis => Except.ok (el?, vis)
  | m :: rest, el?, vis =>
    if groupMatches patterns m then
      match setMaterialAlpha el? oc (m.name.getD "") alpha with
      | Except.error e => Except.error e
      | Except.ok el2 =>
        groupLoop oc patterns alpha visible rest el2
          (recordSet vis (m.name.getD "") visible)
    else groupLoop oc patterns alpha visible rest el? vis

/-- The `updateGroupVisibility(groupKey, visible)` handler: set the group
flag unconditionally, resolve the configured patterns
(`groups[groupKey] || []`), return early when the element is absent or the
patterns are empty, and otherwise run the `try`-guarded loop; the `catch`
leaves the previously updated state as is. -/
def updateGroupVisibility (groups : List (String × List String)) (el? : Option El)
    (s : CState) (groupKey : String) (visible : Bool) : Option El × CState :=
  let s1 : CState := { s with groupVisibility := recordSet s.groupVisibility groupKey visible }
  let patterns := (groups.lookup groupKey).getD []
  match el? with
  | none => (none, s1)
  | some el =>
    if patterns.isEmpty then (some el, s1)
    else
      match readMaterials el with
      | Except.error _ => (some el, s1)
      | Except.ok mats =>
        match groupLoop s1.originalColor patterns (if visible then 1 else 0) visible
            mats (some el) s1.materialVisibility with
        | Except.error _ => (some el, s1)
        | Except.ok (el2, vis2) => (el2, { s1 with materialVisibility := vis2 })

/-- The `toggleSingleMaterial(name, visible)` handler: set the flag, then
call the alpha setter.  The body has no `try`, so an error from the setter
propagates to the caller. -/
def toggleSingleMaterial (el? : Option El) (s : CState) (name : String)
    (visible : Bool) : Except Unit (Option El × CState) :=
  let s1 : CState := { s with materialVisibility := recordSet s.materialVisibility name visible }
  match setMaterialAlpha el? s1.originalColor name (if visible then 1 else 0) with
  | Except.error e => Except.error e
  | Except.ok el2 => Except.ok (el2, s1)

/-- The variant-application effect: `if (el && variant) el.variantName = variant`. -/
def applyVariantEffect (el? : Option El) (variant : String) : Option El :=
  match el? with
  | none => none
  | some el => if variant.isEmpty then some el else some { el with variantName := some variant }

/-- Initial (and reset) group-visibility flags of the component. -/
def initGroupVisibility : List (String × Bool) :=
  [("Body", true), ("Details", true), ("Eyes", true), ("Beak", true), ("Comb", true)]

/-- Initial component state: empty variant and material state, all group
flags true, empty colour cache. -/
def initialCState : CState :=
  { variants := []
    variant := ""
    materials := []
    materialVisibility := []
    groupVisibility := initGroupVisibility
    originalColor := [] }

/-- The `useEffect` on `currentModel`: reset variants, variant, materials,
material visibility, the colour cache, and the group flags to defaults. -/
def onModelChange (s : CState) : CState :=
  { s with variants := [], variant := "", materials := [], materialVisibility := [],
           originalColor := [], groupVisibility := initGroupVisibility }

/-- The static `DEFAULT_GROUPS` configuration of the chicken demos. -/
def DEFAULT_GROUPS : List (String × List String) :=
  [("Body", ["body", "skin", "feather", "coat", "paint"]),
   ("Details", ["detail", "metal", "chrome", "trim"]),
   ("Eyes", ["eye", "pupil", "iris"]),
   ("Beak", ["beak", "mouth"]),
   ("Comb", ["comb", "crest"])]

/-- Names of the materials matched by the given patterns, in scene order:
the list of names on which `updateGroupVisibility` invokes the alpha
setter. -/
def matchedNames (patterns : List String) (mats : List Material) : List String :=
  (mats.filter (groupMatches patterns)).map (fun m => m.name.getD "")

/-- Sequential invocation of the alpha setter on a list of names, used to
state which setter calls `updateGroupVisibility` performs. -/
def setAlphaFold (oc : List (String × Rgba)) (alpha : ℚ) :
    List String → Option El → Except Unit (Option El)
  | [], el? => Except.ok el?
  | n :: ns, el? =>
    match setMaterialAlpha el? oc n alpha with
    | Except.error e => Except.error e
    | Except.ok el2 => setAlphaFold oc alpha ns el2

/-- The material located by `setMaterialAlpha`'s case-insensitive lookup in
the current scene graph. -/
def observeMaterial (el? : Option El) (nm : String) : Option Material :=
  el?.bind (fun el => (elMaterials el).find? (matMatches nm))

/-- Round trip of the alpha setter: `setMaterialAlpha(nm, 0)` followed by
`setMaterialAlpha(nm, 1)`. -/
def roundTripAlpha (el? : Option El) (oc : List (String × Rgba)) (nm : String) :
    Except Unit (Option El) :=
  match setMaterialAlpha el? oc nm 0 with
  | Except.error e => Except.error e
  | Except.ok el1 => setMaterialAlpha el1 oc nm 1

/-- Observable outcome of the round trip: the located material's
`pbrMetallicRoughness` handle and blend mode after both calls. -/
def roundTripObserve (el? : Option El) (oc : List (String × Rgba)) (nm : String) :
    Except Unit (Option (Option PBR × String)) :=
  (roundTripAlpha el? oc nm).map
    (fun el2 => (observeMaterial el2 nm).map
      (fun m => (m.pbrMetallicRoughness, m.alphaMode)))

/-- Observable outcome of a single alpha-setter call: the located material's
blend mode after the call. -/
def observeAlphaMode (el? : Option El) (oc : List (String × Rgba)) (nm : String)
    (alpha : ℚ) : Except Unit (Option String) :=
  (setMaterialAlpha el? oc nm alpha).map
    (fun el2 => (observeMaterial el2 nm).map Material.alphaMode)


/-- A demo material with a cached, non-white base colour. -/
def bodyPaintMat : Material :=
  { name := some "Body_Paint", pbrMetallicRoughness := some ⟨some ⟨2, 3, 5, 1⟩⟩,
    alphaMode := "OPAQUE" }

/-- A demo material matching none of the Body patterns. -/
def eyeLensMat : Material :=
  { name := some "Eye_Lens", pbrMetallicRoughness := some ⟨some whiteRgba⟩,
    alphaMode := "OPAQUE" }

/-- A demo material without a `pbrMetallicRoughness` handle. -/
def noPmrMat : Material :=
  { name := some "Shadow", pbrMetallicRoughness := none, alphaMode := "OPAQUE" }

/-- A loaded, non-throwing demo element with two materials. -/
def demoEl : El :=
  { availableVariants := none, variantName := none,
    model := some ⟨[bodyPaintMat, eyeLensMat]⟩, modelThrows := false }

/-- A loaded, non-throwing demo element whose only material lacks the
`pbrMetallicRoughness` handle. -/
def demoEl2 : El :=
  { availableVariants := none, variantName := none,
    model := some ⟨[noPmrMat]⟩, modelThrows := false }

/-- An element whose scene-graph accessor throws. -/
def throwEl : El :=
  { availableVariants := none, variantName := none, model := none, modelThrows := true }

/-- A colour cache as produced by a load of `demoEl`'s asset. -/
def ocW : List (String × Rgba) := [("Body_Paint", ⟨2, 3, 5, 1⟩)]

/-- Looking up the key just written by `recordSet` yields the written value. -/
theorem recordSet_lookup_self (r : List (String × α)) (k : String) (v : α) :
    (recordSet r k v).lookup k = some v := by
  simp [recordSet, List.lookup]

/-- Filtering out one key does not change lookups of other keys. -/
theorem lookup_filter_ne (r : List (String × α)) (k q : String) (h : q ≠ k) :
    (r.filter (fun p => p.1 != k)).lookup q = r.lookup q := by
  induction r with
  | nil => rfl
  | cons hd tl ih =>
    by_cases hk : hd.1 = k
    · have h1 : (hd.1 != k) = false := by simp [hk]
      have h2 : (q == hd.1) = false := by
        simp [hk]; exact h
      simp [List.filter, h1, List.lookup, h2, ih]
    · have h1 : (hd.1 != k) = true := by simp [hk]
      by_cases hq : q = hd.1
      · have h2 : (q == hd.1) = true := by simp [hq]
        simp [List.filter, h1, List.lookup, h2]
      · have h2 : (q == hd.1) = false := by simp [hq]
        simp [List.filter, h1, List.lookup, h2, ih]

/-- `recordSet` does not change lookups of other keys. -/
theorem recordSet_lookup_ne (r : List (String × α)) (k q : String) (v : α) (h : q ≠ k) :
    (recordSet r k v).lookup q = r.lookup q := by
  have h2 : (q == k) = false := by simp [h]
  simp [recordSet, List.lookup, h2, lookup_filter_ne r k q h]

/-- A present key still looks up to the same value after appending. -/
theorem lookup_append_some (l l2 : List (String × α)) (q : String) (c : α)
    (h : l.lookup q = some c) : (l ++ l2).lookup q = some c := by
  induction l with
  | nil => simp [List.lookup] at h
  | cons hd tl ih =>
    by_cases hq : (q == hd.1) = true
    · simp [List.lookup, hq] at h ⊢; exact h
    · have hq' : (q == hd.1) = false := by simpa using hq
      simp [List.lookup, hq'] at h ⊢
      exact ih h

/-- An absent key looks up in the appended tail. -/
theorem lookup_append_none (l l2 : List (String × α)) (q : String)
    (h : l.lookup q = none) : (l ++ l2).lookup q = l2.lookup q := by
  induction l with
  | nil => simp
  | cons hd tl ih =>
    by_cases hq : (q == hd.1) = true
    · simp only [List.lookup, hq] at h; exact absurd h (by simp)
    · have hq' : (q == hd.1) = false := by simpa using hq
      simp only [List.cons_append, List.lookup, hq'] at h ⊢
      exact ih h

/-- A visibility flag already set to true survives the rest of the
collection loop (the loop only writes `true`). -/
theorem cacheLoop_vis_mono (q : String) (l : List Material) :
    ∀ names vis oc, vis.lookup q = some true →
      ((cacheLoop l names vis oc).2.1).lookup q = some true := by
  induction l with
  | nil => intro names vis oc h; simpa [cacheLoop] using h
  | cons m rest ih =>
    intro names vis oc h
    cases hn : m.name with
    | none => simp only [cacheLoop, hn]; exact ih names vis oc h
    | some n =>
      cases he : n.isEmpty with
      | true => simp only [cacheLoop, hn, he, if_true]; exact ih names vis oc h
      | false =>
        simp only [cacheLoop, hn, he, Bool.false_eq_true, if_false]
        apply ih
        by_cases hq : q = n
        · subst hq; exact recordSet_lookup_self vis q true
        · rw [recordSet_lookup_ne vis n q true hq]; exact h

/-- Every material of the asset with a truthy name ends up with its
visibility flag set to true by the collection loop. -/
theorem cacheLoop_vis_mem (q : String) (hq : q ≠ "") (l : List Material) :
    ∀ names vis oc (m : Material), m ∈ l → m.name = some q →
      ((cacheLoop l names vis oc).2.1).lookup q = some true := by
  induction l with
  | nil => intro names vis oc m hm; exact absurd hm (List.not_mem_nil m)
  | cons m0 rest ih =>
    intro names vis oc m hm hname
    rcases List.mem_cons.mp hm with hm0 | hmr
    · subst hm0
      have he : q.isEmpty = false := by
        cases hqe : q.isEmpty
        · rfl
        · exact absurd ((String.isEmpty_iff q).mp hqe) hq
      simp only [cacheLoop, hname, he, Bool.false_eq_true, if_false]
      exact cacheLoop_vis_mono q rest _ _ _ (recordSet_lookup_self vis q true)
    · cases hn : m0.name with
      | none => simp only [cacheLoop, hn]; exact ih names vis oc m hmr hname
      | some n =>
        cases he : n.isEmpty with
        | true => simp only [cacheLoop, hn, he, if_true]; exact ih names vis oc m hmr hname
        | false =>
          simp only [cacheLoop, hn, he, Bool.false_eq_true, if_false]
          exact ih _ _ _ m hmr hname

/-- A name already cached keeps its cached colour through the collection
loop: repeated load notifications never overwrite the cache. -/
theorem cacheLoop_cache_keep (q : String) (c : Rgba) (l : List Material) :
    ∀ names vis oc, oc.lookup q = some c →
      ((cacheLoop l names vis oc).2.2).lookup q = some c := by
  induction l with
  | nil => intro names vis oc h; simpa [cacheLoop] using h
  | cons m rest ih =>
    intro names vis oc h
    cases hn : m.name with
    | none => simp only [cacheLoop, hn]; exact ih names vis oc h
    | some n =>
      cases he : n.isEmpty with
      | true => simp only [cacheLoop, hn, he, if_true]; exact ih names vis oc h
      | false =>
        simp only [cacheLoop, hn, he, Bool.false_eq_true, if_false]
        apply ih
        cases hs : (oc.lookup n).isSome with
        | true => simpa [hs] using h
        | false =>
          simp only [hs, Bool.false_eq_true, if_false]
          exact lookup_append_some oc [(n, baseColorOrWhite m)] q c h

/-- A name not yet cached gets, after the collection loop, the base colour
(defaulting to opaque white) of the first asset material carrying exactly
that name. -/
theorem cacheLoop_cache_new (q : String) (hq : q ≠ "") (l : List Material) :
    ∀ names vis oc, oc.lookup q = none →
      ((cacheLoop l names vis oc).2.2).lookup q =
        (l.find? (fun mm => mm.name == some q)).map baseColorOrWhite := by
  induction l with
  | nil => intro names vis oc h; simpa [cacheLoop] using h
  | cons m rest ih =>
    intro names vis oc h
    cases hn : m.name with
    | none =>
      have hcond : (fun mm => mm.name == some q) m = false := by simp [hn]
      rw [List.find?_cons_of_neg _ (by simp [hcond])]
      simp only [cacheLoop, hn]
      exact ih names vis oc h
    | some n =>
      cases he : n.isEmpty with
      | true =>
        have hne : n ≠ q := by
          intro hnq; exact hq (hnq ▸ (String.isEmpty_iff n).mp he)
        have hcond : (fun mm => mm.name == some q) m = false := by simp [hn, hne]
        rw [List.find?_cons_of_neg _ (by simp [hcond])]
        simp only [cacheLoop, hn, he, if_true]
        exact ih names vis oc h
      | false =>
        by_cases hnq : n = q
        · subst hnq
          have hcond : (fun mm => mm.name == some n) m = true := by simp [hn]
          rw [List.find?_cons_of_pos _ (by simp [hcond])]
          simp only [cacheLoop, hn, he, Bool.false_eq_true, if_false, h,
            Option.isSome_none, if_false]
          exact cacheLoop_cache_keep n (baseColorOrWhite m) rest _ _ _
            (by rw [lookup_append_none oc _ n h]; simp [List.lookup])
        · have hcond : (fun mm => mm.name == some q) m = false := by simp [hn, hnq]
          rw [List.find?_cons_of_neg _ (by simp [hcond])]
          simp only [cacheLoop, hn, he, Bool.false_eq_true, if_false]
          apply ih
          cases hs : (oc.lookup n).isSome with
          | true => simpa [hs] using h
          | false =>
            simp only [hs, Bool.false_eq_true, if_false]
            rw [lookup_append_none oc _ q h]
            have hqn : (q == n) = false := by simp; exact fun hx => hnq hx.symm
            simp [List.lookup, hqn]

/-- The variant block of the load handler touches neither the scene graph
nor the material-related state cells. -/
theorem onLoadVariants_preserve (el : El) (s : CState) :
    (onLoadVariants el s).1.model = el.model ∧
    (onLoadVariants el s).1.modelThrows = el.modelThrows ∧
    (onLoadVariants el s).2.originalColor = s.originalColor ∧
    (onLoadVariants el s).2.materials = s.materials ∧
    (onLoadVariants el s).2.materialVisibility = s.materialVisibility ∧
    (onLoadVariants el s).2.variant = (if (el.availableVariants.getD []).isEmpty then s.variant
      else if s.variant.isEmpty then (el.availableVariants.getD []).headD "" else s.variant) := by
  unfold onLoadVariants
  cases el.availableVariants.getD [] with
  | nil => simp
  | cons v vs => simp

/-- Elements with equal scene-graph handles expose equal material lists. -/
theorem elMaterials_congr (a b : El) (h : a.model = b.model) :
    elMaterials a = elMaterials b := by
  unfold elMaterials; rw [h]

/-- Claim C1: after a load notification on a non-throwing renderer, every
named material of the loaded asset has its visibility flag set to true;
an already cached name keeps its cached original colour (so across repeated
load notifications a name is cached exactly once); and a name not cached
yet is cached with the base colour of its first occurrence, defaulting to
opaque white when the material exposes no base-colour factor. -/
theorem onLoad_spec (el : El) (s : CState) (m : Material) (n : String)
    (hthrow : el.modelThrows = false)
    (hm : m ∈ elMaterials el) (hname : m.name = some n) (hne : n ≠ "") :
    ((onLoad el s).2.materialVisibility.lookup n = some true) ∧
    (∀ c : Rgba, s.originalColor.lookup n = some c →
      (onLoad el s).2.originalColor.lookup n = some c) ∧
    (s.originalColor.lookup n = none →
      (onLoad el s).2.originalColor.lookup n =
        ((elMaterials el).find? (fun mm => mm.name == some n)).map baseColorOrWhite) := by
  obtain ⟨hmod, hthr, hoc, -, -, -⟩ := onLoadVariants_preserve el s
  have hread : readMaterials (onLoadVariants el s).1 = Except.ok (elMaterials el) := by
    unfold readMaterials
    rw [hthr, hthrow, elMaterials_congr _ el hmod]
    rfl
  unfold onLoad
  simp only [hread, hoc]
  refine ⟨?_, ?_, ?_⟩
  · exact cacheLoop_vis_mem n hne (elMaterials el) [] [] s.originalColor m hm hname
  · intro c hc
    exact cacheLoop_cache_keep n c (elMaterials el) [] [] s.originalColor hc
  · intro hc
    exact cacheLoop_cache_new n hne (elMaterials el) [] [] s.originalColor hc

/-- Mutating the found material preserves its name. -/
theorem applyAlphaTo_name (oc : List (String × Rgba)) (a : ℚ) (m : Material) :
    (applyAlphaTo oc a m).name = m.name := by
  unfold applyAlphaTo
  cases m.pbrMetallicRoughness <;> rfl

/-- Mutating the found material preserves whether it matches a requested
name. -/
theorem matMatches_applyAlphaTo (nm : String) (oc : List (String × Rgba)) (a : ℚ)
    (m : Material) : matMatches nm (applyAlphaTo oc a m) = matMatches nm m := by
  unfold matMatches
  rw [applyAlphaTo_name]

/-- Updating the first match in place relocates `find?` onto the updated
element, provided the update preserves the predicate. -/
theorem find?_updateFirst (p : Material → Bool) (f : Material → Material)
    (hp : ∀ x, p x = true → p (f x) = true) (l : List Material) (m : Material)
    (hfind : l.find? p = some m) :
    (updateFirst p f l).find? p = some (f m) := by
  induction l with
  | nil => simp [List.find?] at hfind
  | cons x xs ih =>
    cases hx : p x with
    | true =>
      rw [List.find?_cons_of_pos _ hx] at hfind
      injection hfind with hxm
      subst hxm
      simp only [updateFirst, hx, if_true]
      exact List.find?_cons_of_pos _ (hp _ hx)
    | false =>
      rw [List.find?_cons_of_neg _ (by simp [hx])] at hfind
      simp only [updateFirst, hx, Bool.false_eq_true, if_false]
      rw [List.find?_cons_of_neg _ (by simp [hx])]
      exact ih hfind

/-- A successful `find?` forces the scene-graph handle to be present. -/
theorem model_isSome_of_find (el : El) (nm : String) (m : Material)
    (h : (elMaterials el).find? (matMatches nm) = some m) : el.model.isSome = true := by
  cases hm : el.model with
  | none => rw [elMaterials, hm] at h; simp [List.find?] at h
  | some mo => rfl

/-- Replacing the material list keeps the fault flag. -/
theorem setMatsIn_modelThrows (el : El) (mats : List Material) :
    (setMatsIn el mats).modelThrows = el.modelThrows := rfl

/-- Replacing the material list indeed stores the new list (when a scene
graph is present). -/
theorem elMaterials_setMatsIn (el : El) (mats : List Material)
    (h : el.model.isSome = true) : elMaterials (setMatsIn el mats) = mats := by
  cases hm : el.model with
  | none => rw [hm] at h; simp at h
  | some mo => simp [elMaterials, setMatsIn, hm]

/-- Unfolding of `setMaterialAlpha` in the successful mutation case. -/
theorem setMaterialAlpha_found (el : El) (oc : List (String × Rgba)) (nm : String)
    (m : Material) (alpha : ℚ)
    (hthrow : el.modelThrows = false)
    (hfind : (elMaterials el).find? (matMatches nm) = some m)
    (hpmr : m.pbrMetallicRoughness.isSome = true) :
    setMaterialAlpha (some el) oc nm alpha =
      Except.ok (some (setMatsIn el
        (updateFirst (matMatches nm) (applyAlphaTo oc alpha) (elMaterials el)))) := by
  simp only [setMaterialAlpha, hthrow, Bool.false_eq_true, if_false, hfind]
  cases hp : m.pbrMetallicRoughness with
  | none => rw [hp] at hpmr; simp at hpmr
  | some pmr => rfl

/-- When the alpha setter runs against a non-throwing element it returns
normally with the fault flag still clear. -/
theorem setMaterialAlpha_ok (el : El) (oc : List (String × Rgba)) (nm : String)
    (alpha : ℚ) (h : el.modelThrows = false) :
    ∃ el2 : El, setMaterialAlpha (some el) oc nm alpha = Except.ok (some el2) ∧
      el2.modelThrows = false := by
  simp only [setMaterialAlpha, h, Bool.false_eq_true, if_false]
  cases hf : (elMaterials el).find? (matMatches nm) with
  | none => exact ⟨el, rfl, h⟩
  | some m =>
    cases hp : m.pbrMetallicRoughness with
    | none => exact ⟨el, by simp only [hp], h⟩
    | some pmr =>
      refine ⟨setMatsIn el (updateFirst (matMatches nm) (applyAlphaTo oc alpha)
        (elMaterials el)), by simp only [hp], ?_⟩
      rw [setMatsIn_modelThrows]
      exact h

/-- Replacing the material list keeps the scene-graph handle present. -/
theorem setMatsIn_model_isSome (el : El) (mats : List Material)
    (h : el.model.isSome = true) : (setMatsIn el mats).model.isSome = true := by
  cases hm : el.model with
  | none => rw [hm] at h; simp at h
  | some mo => simp [setMatsIn, hm]

/-- Unfolding of the mutation applied to a found material that carries a
`pbrMetallicRoughness` handle. -/
theorem applyAlphaTo_pbr (oc : List (String × Rgba)) (a : ℚ) (m : Material) (pmr : PBR)
    (hp : m.pbrMetallicRoughness = some pmr) :
    applyAlphaTo oc a m =
      { m with
        pbrMetallicRoughness :=
          some { pmr with
                 baseColorFactor :=
                   some ⟨(origOf oc m).r, (origOf oc m).g, (origOf oc m).b, a⟩ },
        alphaMode := if a < 1 then "BLEND" else "OPAQUE" } := by
  unfold applyAlphaTo
  rw [hp]

/-- Claim C2: for a material located by the alpha setter whose name is
cached, `setMaterialAlpha(nm, 0)` followed by `setMaterialAlpha(nm, 1)`
leaves the material's base-colour factor at the cached RGB channels with
alpha 1 and its blend mode opaque. -/
theorem setAlpha_roundTrip (el : El) (oc : List (String × Rgba)) (nm : String)
    (m : Material) (c : Rgba)
    (hthrow : el.modelThrows = false)
    (hfind : (elMaterials el).find? (matMatches nm) = some m)
    (hpmr : m.pbrMetallicRoughness.isSome = true)
    (hc : oc.lookup (m.name.getD "") = some c) :
    roundTripObserve (some el) oc nm =
      Except.ok (some (some ⟨some ⟨c.r, c.g, c.b, 1⟩⟩, "OPAQUE")) := by
  obtain ⟨pmr, hp⟩ := Option.isSome_iff_exists.mp hpmr
  have hms : el.model.isSome = true := model_isSome_of_find el nm m hfind
  have hpres : ∀ (a : ℚ) (x : Material), matMatches nm x = true →
      matMatches nm (applyAlphaTo oc a x) = true := by
    intro a x hx
    rw [matMatches_applyAlphaTo]
    exact hx
  have horig : origOf oc m = c := by unfold origOf; rw [hc]; rfl
  have h1 := setMaterialAlpha_found el oc nm m 0 hthrow hfind hpmr
  have hm1 : elMaterials (setMatsIn el (updateFirst (matMatches nm) (applyAlphaTo oc 0)
      (elMaterials el))) = updateFirst (matMatches nm) (applyAlphaTo oc 0) (elMaterials el) :=
    elMaterials_setMatsIn el _ hms
  have hfind1 : (elMaterials (setMatsIn el (updateFirst (matMatches nm) (applyAlphaTo oc 0)
      (elMaterials el)))).find? (matMatches nm) = some (applyAlphaTo oc 0 m) := by
    rw [hm1]
    exact find?_updateFirst (matMatches nm) (applyAlphaTo oc 0) (hpres 0) (elMaterials el) m hfind
  have hm1e : applyAlphaTo oc 0 m =
      { m with
        pbrMetallicRoughness :=
          some { pmr with baseColorFactor := some ⟨c.r, c.g, c.b, 0⟩ },
        alphaMode := if (0:ℚ) < 1 then "BLEND" else "OPAQUE" } := by
    rw [applyAlphaTo_pbr oc 0 m pmr hp, horig]
  have hp1 : (applyAlphaTo oc 0 m).pbrMetallicRoughness =
      some { pmr with baseColorFactor := some ⟨c.r, c.g, c.b, 0⟩ } := by
    rw [hm1e]
  have horig1 : origOf oc (applyAlphaTo oc 0 m) = c := by
    unfold origOf
    rw [applyAlphaTo_name, hc]
    rfl
  have h2 := setMaterialAlpha_found (setMatsIn el (updateFirst (matMatches nm)
      (applyAlphaTo oc 0) (elMaterials el))) oc nm (applyAlphaTo oc 0 m) 1
    (by rw [setMatsIn_modelThrows]; exact hthrow) hfind1 (by rw [hp1]; rfl)
  have hms1 : (setMatsIn el (updateFirst (matMatches nm) (applyAlphaTo oc 0)
      (elMaterials el))).model.isSome = true := setMatsIn_model_isSome el _ hms
  have hm2 : elMaterials (setMatsIn (setMatsIn el (updateFirst (matMatches nm)
      (applyAlphaTo oc 0) (elMaterials el)))
      (updateFirst (matMatches nm) (applyAlphaTo oc 1)
        (elMaterials (setMatsIn el (updateFirst (matMatches nm) (applyAlphaTo oc 0)
          (elMaterials el)))))) =
      updateFirst (matMatches nm) (applyAlphaTo oc 1)
        (elMaterials (setMatsIn el (updateFirst (matMatches nm) (applyAlphaTo oc 0)
          (elMaterials el)))) :=
    elMaterials_setMatsIn _ _ hms1
  have hfind2 : (elMaterials (setMatsIn (setMatsIn el (updateFirst (matMatches nm)
      (applyAlphaTo oc 0) (elMaterials el)))
      (updateFirst (matMatches nm) (applyAlphaTo oc 1)
        (elMaterials (setMatsIn el (updateFirst (matMatches nm) (applyAlphaTo oc 0)
          (elMaterials el))))))).find? (matMatches nm) =
      some (applyAlphaTo oc 1 (applyAlphaTo oc 0 m)) := by
    rw [hm2]
    exact find?_updateFirst (matMatches nm) (applyAlphaTo oc 1) (hpres 1) _ _ hfind1
  have hm2e : applyAlphaTo oc 1 (applyAlphaTo oc 0 m) =
      { applyAlphaTo oc 0 m with
        pbrMetallicRoughness :=
          some { pmr with baseColorFactor := some ⟨c.r, c.g, c.b, 1⟩ },
        alphaMode := "OPAQUE" } := by
    rw [applyAlphaTo_pbr oc 1 (applyAlphaTo oc 0 m) _ hp1, horig1]
    norm_num
  unfold roundTripObserve roundTripAlpha
  rw [h1]
  simp only []
  rw [h2]
  unfold observeMaterial
  simp only [Except.map, Option.bind]
  rw [hfind2, hm2e]
  rfl

/-- Claim C5: when no material of the current asset is named (case
insensitively) `nm`, the alpha setter returns the element unchanged and
raises no error. -/
theorem setAlpha_missing_noop (el : El) (oc : List (String × Rgba)) (nm : String)
    (alpha : ℚ)
    (hthrow : el.modelThrows = false)
    (habs : ∀ m ∈ elMaterials el, matMatches nm m = false) :
    setMaterialAlpha (some el) oc nm alpha = Except.ok (some el) := by
  have hfind : (elMaterials el).find? (matMatches nm) = none :=
    List.find?_eq_none.mpr (fun x hx => by simp [habs x hx])
  simp only [setMaterialAlpha, hthrow, Bool.false_eq_true, if_false, hfind]

/-- Claim C9: when the located material exposes no `pbrMetallicRoughness`
handle, the alpha setter mutates nothing (it returns the element unchanged)
and raises no error. -/
theorem setAlpha_noPmr_noop (el : El) (oc : List (String × Rgba)) (nm : String)
    (alpha : ℚ) (m : Material)
    (hthrow : el.modelThrows = false)
    (hfind : (elMaterials el).find? (matMatches nm) = some m)
    (hpmr : m.pbrMetallicRoughness = none) :
    setMaterialAlpha (some el) oc nm alpha = Except.ok (some el) := by
  simp only [setMaterialAlpha, hthrow, Bool.false_eq_true, if_false, hfind, hpmr]

/-- Claim C6: after the alpha setter mutates a located material (one that
carries a `pbrMetallicRoughness` handle), that material's blend mode is
`BLEND` exactly when the requested alpha is below 1 and `OPAQUE`
otherwise. -/
theorem setAlpha_blendMode (el : El) (oc : List (String × Rgba)) (nm : String)
    (alpha : ℚ) (m : Material)
    (hthrow : el.modelThrows = false)
    (hfind : (elMaterials el).find? (matMatches nm) = some m)
    (hpmr : m.pbrMetallicRoughness.isSome = true) :
    observeAlphaMode (some el) oc nm alpha =
      Except.ok (some (if alpha < 1 then "BLEND" else "OPAQUE")) := by
  obtain ⟨pmr, hp⟩ := Option.isSome_iff_exists.mp hpmr
  have hms : el.model.isSome = true := model_isSome_of_find el nm m hfind
  have hpres : ∀ (x : Material), matMatches nm x = true →
      matMatches nm (applyAlphaTo oc alpha x) = true := by
    intro x hx
    rw [matMatches_applyAlphaTo]
    exact hx
  have h1 := setMaterialAlpha_found el oc nm m alpha hthrow hfind hpmr
  have hm1 : elMaterials (setMatsIn el (updateFirst (matMatches nm) (applyAlphaTo oc alpha)
      (elMaterials el))) = updateFirst (matMatches nm) (applyAlphaTo oc alpha)
      (elMaterials el) := elMaterials_setMatsIn el _ hms
  have hfind1 : (elMaterials (setMatsIn el (updateFirst (matMatches nm)
      (applyAlphaTo oc alpha) (elMaterials el)))).find? (matMatches nm) =
      some (applyAlphaTo oc alpha m) := by
    rw [hm1]
    exact find?_updateFirst (matMatches nm) (applyAlphaTo oc alpha) hpres (elMaterials el) m hfind
  have hmode : (applyAlphaTo oc alpha m).alphaMode =
      (if alpha < 1 then "BLEND" else "OPAQUE") := by
    rw [applyAlphaTo_pbr oc alpha m pmr hp]
  unfold observeAlphaMode observeMaterial
  rw [h1]
  simp only [Except.map, Option.bind]
  rw [hfind1]
  simp only [Option.map, hmode]

/-- Claim C4: changing the selected model source resets the component state
to its initial configuration: empty variant list, empty active variant,
empty material list and visibility mapping, cleared colour cache, and all
group flags true. -/
theorem modelChange_resets (s : CState) : onModelChange s = initialCState := by
  cases s
  rfl

/-- Claim C7: when the loaded asset exposes no variants, the load handler
leaves the active-variant state at its empty default and never writes the
element's `variantName` property; the variant-application effect then also
leaves the element untouched. -/
theorem onLoad_noVariants (el : El) (s : CState)
    (hv : el.availableVariants.getD [] = [])
    (hs : s.variant = "") :
    (onLoad el s).1.variantName = el.variantName ∧
    (onLoad el s).2.variant = "" ∧
    applyVariantEffect (some (onLoad el s).1) ((onLoad el s).2.variant) =
      some (onLoad el s).1 := by
  have hvar : onLoadVariants el s = (el, { s with variants := [] }) := by
    unfold onLoadVariants
    rw [hv]
  unfold onLoad
  rw [hvar]
  cases hr : readMaterials el with
  | error e =>
    simp only [hr, applyVariantEffect, hs]
    exact ⟨trivial, trivial, by rw [if_pos (by decide : "".isEmpty = true)]⟩
  | ok mats =>
    simp only [hr, applyVariantEffect, hs]
    exact ⟨trivial, trivial, by rw [if_pos (by decide : "".isEmpty = true)]⟩

/-- Matched names of a cons cell when the head matches. -/
theorem matchedNames_cons_pos (pats : List String) (m : Material) (rest : List Material)
    (h : groupMatches pats m = true) :
    matchedNames pats (m :: rest) = m.name.getD "" :: matchedNames pats rest := by
  simp [matchedNames, List.filter_cons, h]

/-- Matched names of a cons cell when the head does not match. -/
theorem matchedNames_cons_neg (pats : List String) (m : Material) (rest : List Material)
    (h : groupMatches pats m = false) :
    matchedNames pats (m :: rest) = matchedNames pats rest := by
  simp [matchedNames, List.filter_cons, h]

/-- Behaviour of the group loop over a non-throwing element: it terminates
normally, performs exactly the alpha-setter invocations described by
`matchedNames`, sets the visibility flag of every matched name, and leaves
every other flag untouched. -/
theorem groupLoop_spec (oc : List (String × Rgba)) (pats : List String) (alpha : ℚ)
    (visible : Bool) (mats : List Material) :
    ∀ (e : El) (vis : List (String × Bool)), e.modelThrows = false →
    ∃ (e2 : El) (vis2 : List (String × Bool)),
      groupLoop oc pats alpha visible mats (some e) vis = Except.ok (some e2, vis2) ∧
      e2.modelThrows = false ∧
      setAlphaFold oc alpha (matchedNames pats mats) (some e) = Except.ok (some e2) ∧
      (∀ q : String, q ∉ matchedNames pats mats → vis2.lookup q = vis.lookup q) ∧
      (∀ q : String, q ∈ matchedNames pats mats → vis2.lookup q = some visible) := by
  induction mats with
  | nil =>
    intro e vis he
    refine ⟨e, vis, rfl, he, rfl, fun q _ => rfl, fun q hq => ?_⟩
    simp [matchedNames] at hq
  | cons m rest ih =>
    intro e vis he
    cases hm : groupMatches pats m with
    | false =>
      obtain ⟨e2, vis2, hloop, he2, hfold, hnot, hyes⟩ := ih e vis he
      refine ⟨e2, vis2, ?_, he2, ?_, ?_, ?_⟩
      · simp only [groupLoop, hm, Bool.false_eq_true, if_false]
        exact hloop
      · rw [matchedNames_cons_neg pats m rest hm]
        exact hfold
      · intro q hq
        rw [matchedNames_cons_neg pats m rest hm] at hq
        exact hnot q hq
      · intro q hq
        rw [matchedNames_cons_neg pats m rest hm] at hq
        exact hyes q hq
    | true =>
      obtain ⟨eb, hsa, heb⟩ := setMaterialAlpha_ok e oc (m.name.getD "") alpha he
      obtain ⟨e2, vis2, hloop, he2, hfold, hnot, hyes⟩ :=
        ih eb (recordSet vis (m.name.getD "") visible) heb
      refine ⟨e2, vis2, ?_, he2, ?_, ?_, ?_⟩
      · simp only [groupLoop, hm, if_true, hsa]
        exact hloop
      · rw [matchedNames_cons_pos pats m rest hm]
        simp only [setAlphaFold, hsa]
        exact hfold
      · intro q hq
        rw [matchedNames_cons_pos pats m rest hm] at hq
        have hq1 : q ≠ m.name.getD "" := fun h => hq (h ▸ List.mem_cons_self _ _)
        have hq2 : q ∉ matchedNames pats rest := fun h => hq (List.mem_cons_of_mem _ h)
        rw [hnot q hq2, recordSet_lookup_ne vis (m.name.getD "") q visible hq1]
      · intro q hq
        by_cases hq2 : q ∈ matchedNames pats rest
        · exact hyes q hq2
        · rw [matchedNames_cons_pos pats m rest hm] at hq
          rcases List.mem_cons.mp hq with hq1 | hq1
          · subst hq1
            rw [hnot _ hq2]
            exact recordSet_lookup_self vis _ visible
          · exact absurd hq1 hq2

/-- Claim C3: `updateGroupVisibility` invokes the alpha setter, with alpha
1 for visible and 0 for hidden, on exactly the materials whose lowercased
name contains one of the group's configured patterns (the `matchedNames`
fold), sets the visibility flag of every matched material's name to the
requested value, and leaves the visibility flag of every name carried only
by non-matching materials unchanged. -/
theorem updateGroup_spec (groups : List (String × List String)) (el : El) (s : CState)
    (k : String) (visible : Bool) (hthrow : el.modelThrows = false) :
    (∀ m ∈ elMaterials el, groupMatches ((groups.lookup k).getD []) m = true →
      (updateGroupVisibility groups (some el) s k visible).2.materialVisibility.lookup
        (m.name.getD "") = some visible) ∧
    (∀ q : String,
      (∀ m ∈ elMaterials el, m.name.getD "" = q →
        groupMatches ((groups.lookup k).getD []) m = false) →
      (updateGroupVisibility groups (some el) s k visible).2.materialVisibility.lookup q =
        s.materialVisibility.lookup q) ∧
    setAlphaFold s.originalColor (if visible then 1 else 0)
        (matchedNames ((groups.lookup k).getD []) (elMaterials el)) (some el) =
      Except.ok ((updateGroupVisibility groups (some el) s k visible).1) := by
  have hread : readMaterials el = Except.ok (elMaterials el) := by
    unfold readMaterials
    rw [hthrow]
    rfl
  cases hp : ((groups.lookup k).getD []).isEmpty with
  | true =>
    have hpats : (groups.lookup k).getD [] = [] := by
      cases hx : (groups.lookup k).getD []
      · rfl
      · rw [hx] at hp; simp at hp
    have hres : updateGroupVisibility groups (some el) s k visible =
        (some el, { s with groupVisibility := recordSet s.groupVisibility k visible }) := by
      unfold updateGroupVisibility
      simp only [hp, if_true]
    rw [hres]
    refine ⟨?_, ?_, ?_⟩
    · intro m hm hmk
      rw [hpats] at hmk
      simp [groupMatches] at hmk
    · intro q hq
      rfl
    · rw [hpats]
      have hfe : List.filter (groupMatches ([] : List String)) (elMaterials el) = [] :=
        List.filter_eq_nil_iff.mpr (fun m _ => by simp [groupMatches])
      simp [matchedNames, hfe, setAlphaFold]
  | false =>
    obtain ⟨e2, vis2, hloop, he2, hfold, hnot, hyes⟩ :=
      groupLoop_spec s.originalColor ((groups.lookup k).getD [])
        (if visible then 1 else 0) visible (elMaterials el) el s.materialVisibility hthrow
    have hres : updateGroupVisibility groups (some el) s k visible =
        (some e2, { s with groupVisibility := recordSet s.groupVisibility k visible,
                           materialVisibility := vis2 }) := by
      unfold updateGroupVisibility
      simp only [hp, Bool.false_eq_true, if_false, hread, hloop]
    rw [hres]
    refine ⟨?_, ?_, ?_⟩
    · intro m hm hmk
      apply hyes
      exact List.mem_map_of_mem _ (List.mem_filter.mpr ⟨hm, hmk⟩)
    · intro q hq
      apply hnot
      intro hmem
      rcases List.mem_map.mp hmem with ⟨m, hmf, hmq⟩
      rcases List.mem_filter.mp hmf with ⟨hml, hmk⟩
      exact absurd hmk (by simp [hq m hml hmq])
    · exact hfold

/-- Claim C10: `updateGroupVisibility` sets the group's own visibility flag
unconditionally, even when the renderer element is absent (in which case no
material is mutated), the group key has no configured patterns, or no
material matches. -/
theorem groupFlag_unconditional (groups : List (String × List String)) (el? : Option El)
    (s : CState) (k : String) (visible : Bool) :
    (updateGroupVisibility groups el? s k visible).2.groupVisibility.lookup k =
      some visible ∧
    (updateGroupVisibility groups none s k visible).1 = none := by
  constructor
  · cases el? with
    | none =>
      simp only [updateGroupVisibility]
      exact recordSet_lookup_self _ _ _
    | some el =>
      cases hp : ((groups.lookup k).getD []).isEmpty with
      | true =>
        simp only [updateGroupVisibility, hp, if_true]
        exact recordSet_lookup_self _ _ _
      | false =>
        cases hr : readMaterials el with
        | error e =>
          simp only [updateGroupVisibility, hp, Bool.false_eq_true, if_false, hr]
          exact recordSet_lookup_self _ _ _
        | ok mats =>
          cases hl : groupLoop s.originalColor ((groups.lookup k).getD [])
              (if visible then 1 else 0) visible mats (some el)
              s.materialVisibility with
          | error e =>
            simp only [updateGroupVisibility, hp, Bool.false_eq_true, if_false, hr, hl]
            exact recordSet_lookup_self _ _ _
          | ok p =>
            obtain ⟨el2, vis2⟩ := p
            simp only [updateGroupVisibility, hp, Bool.false_eq_true, if_false, hr, hl]
            exact recordSet_lookup_self _ _ _
  · simp only [updateGroupVisibility]

/-- Claims C8 (amended): on an element whose scene-graph accessor throws,
the load handler and `updateGroupVisibility` catch the failure and leave the
material state (and the scene graph) untouched beyond the already applied
group flag, while `toggleSingleMaterial` does not catch: the error from its
alpha-setter call propagates to the caller. -/
theorem errorPolicy_amended (el : El) (s : CState) (groups : List (String × List String))
    (k nm : String) (gv mv : Bool) (h : el.modelThrows = true) :
    ((onLoad el s).2.materials = s.materials ∧
     (onLoad el s).2.materialVisibility = s.materialVisibility ∧
     (onLoad el s).2.originalColor = s.originalColor ∧
     (onLoad el s).1.model = el.model) ∧
    updateGroupVisibility groups (some el) s k gv =
      (some el, { s with groupVisibility := recordSet s.groupVisibility k gv }) ∧
    toggleSingleMaterial (some el) s nm mv = Except.error () := by
  obtain ⟨hmod, hthr, hoc, hmats, hvis, -⟩ := onLoadVariants_preserve el s
  have hread : readMaterials (onLoadVariants el s).1 = Except.error () := by
    unfold readMaterials
    rw [hthr, h]
    rfl
  refine ⟨?_, ?_, ?_⟩
  · unfold onLoad
    simp only [hread]
    exact ⟨hmats, hvis, hoc, hmod⟩
  · have hr : readMaterials el = Except.error () := by
      unfold readMaterials
      rw [h]
      rfl
    cases hp : ((groups.lookup k).getD []).isEmpty with
    | true => simp only [updateGroupVisibility, hp, if_true]
    | false => simp only [updateGroupVisibility, hp, Bool.false_eq_true, if_false, hr]
  · simp only [toggleSingleMaterial, setMaterialAlpha, h, if_true]

/-- Claim C8, counterexample to the claim as stated: on a concrete element
whose scene-graph accessor fails, the single-material toggle path propagates
the error to its caller instead of catching it. -/
theorem toggleSingle_error_propagates :
    toggleSingleMaterial (some throwEl) initialCState "body" false = Except.error () := rfl

/-- Witness for C1 at a concrete load. -/
theorem onLoad_spec_witness :
    (onLoad demoEl initialCState).2.materialVisibility.lookup "Body_Paint" = some true :=
  (onLoad_spec demoEl initialCState bodyPaintMat "Body_Paint" rfl (by decide) rfl
    (by decide)).1

/-- Witness for C2 at a concrete round trip. -/
theorem setAlpha_roundTrip_witness :
    roundTripObserve (some demoEl) ocW "body_paint" =
      Except.ok (some (some ⟨some ⟨2, 3, 5, 1⟩⟩, "OPAQUE")) :=
  setAlpha_roundTrip demoEl ocW "body_paint" bodyPaintMat ⟨2, 3, 5, 1⟩ rfl (by decide)
    rfl (by decide)

/-- Witness for C3 at a concrete group toggle. -/
theorem updateGroup_spec_witness :
    (updateGroupVisibility DEFAULT_GROUPS (some demoEl) initialCState "Body"
        false).2.materialVisibility.lookup "Body_Paint" = some false :=
  (updateGroup_spec DEFAULT_GROUPS demoEl initialCState "Body" false rfl).1
    bodyPaintMat (by decide) (by decide)

/-- Witness for C5 at a concrete missing name. -/
theorem setAlpha_missing_noop_witness :
    setMaterialAlpha (some demoEl) [] "ghost" 0 = Except.ok (some demoEl) :=
  setAlpha_missing_noop demoEl [] "ghost" 0 rfl (by decide)

/-- Witness for C6 at a concrete hide request. -/
theorem setAlpha_blendMode_witness :
    observeAlphaMode (some demoEl) [] "eye_lens" 0 =
      Except.ok (some (if (0:ℚ) < 1 then "BLEND" else "OPAQUE")) :=
  setAlpha_blendMode demoEl [] "eye_lens" 0 eyeLensMat rfl (by decide) rfl

/-- Witness for C7 at a concrete variant-free load. -/
theorem onLoad_noVariants_witness :
    (onLoad demoEl initialCState).1.variantName = demoEl.variantName ∧
    (onLoad demoEl initialCState).2.variant = "" ∧
    applyVariantEffect (some (onLoad demoEl initialCState).1)
      ((onLoad demoEl initialCState).2.variant) = some (onLoad demoEl initialCState).1 :=
  onLoad_noVariants demoEl initialCState rfl rfl

/-- Witness for C8 (amended) at a concrete throwing element. -/
theorem errorPolicy_amended_witness :
    toggleSingleMaterial (some throwEl) initialCState "eye_lens" true = Except.error () :=
  (errorPolicy_amended throwEl initialCState DEFAULT_GROUPS "Body" "eye_lens" true true
    rfl).2.2

/-- Witness for C9 at a concrete handle-free material. -/
theorem setAlpha_noPmr_noop_witness :
    setMaterialAlpha (some demoEl2) [] "shadow" 0 = Except.ok (some demoEl2) :=
  setAlpha_noPmr_noop demoEl2 [] "shadow" 0 noPmrMat rfl (by decide) rfl

end MVDemo
